import Mathlib

/-
Verification of the iNaturalist taxonomic-order lookup tool (inat.orders.py).

The embedding models the four components of the pipeline:

* `RateLimiter` / `wait_and_increment` — the inter-request spacing logic,
  with wall-clock reads supplied explicitly as rational numbers.
* `make_api_request` / `requestLoop` — the retry/backoff loop; the remote
  service is an oracle `script : ℕ → HttpOutcome α` giving the outcome of
  each HTTP attempt, and the rate limiter state is threaded through.
* `get_observation_taxonomy` — the ancestry-chain resolver; the remote is
  a pair of oracles (the observation document, and a per-taxon-id fetch
  function).  The second component of its result records the list of
  ancestor ids fetched, in order.
* `processObs` / `runObservations` — the per-observation classification
  and summary counters of `main`'s processing loop.

Python truthiness of optional strings (`None` and `""` are falsy) is made
explicit by `truthyS`; Python `dict`/`Counter` values are association
lists keyed by the (possibly `None`) Python value.
-/

namespace INat

/-- Python truthiness of an optional string: `None` and `""` are falsy. -/
def truthyS : Option String → Bool
  | none => false
  | some s => s != ""

/-- The `results[0].taxon` object of an observation document:
`rank`, `name` and the slash-delimited `ancestry` string. -/
structure Taxon where
  rank : Option String
  name : Option String
  ancestry : Option String
deriving Repr, DecidableEq

/-- One element of an observation document's `results` array. -/
structure ObsResult where
  taxon : Option Taxon
deriving Repr, DecidableEq

/-- An observation document: its `results` array. -/
structure ObsDoc where
  results : List ObsResult
deriving Repr, DecidableEq

/-- One element of a taxon document's `results` array: `rank` and `name`. -/
structure TaxonDoc where
  rank : Option String
  name : Option String
deriving Repr, DecidableEq

/-- Split a character list on a delimiter, Python `str.split` style:
the empty list yields one empty group. -/
def splitCharsOn (c : Char) : List Char → List (List Char)
  | [] => [[]]
  | ch :: rest =>
    match splitCharsOn c rest with
    | [] => [[]]
    | g :: gs => if ch = c then [] :: g :: gs else (ch :: g) :: gs

/-- Line 159: `ancestry.split('/')` — Python's `str.split` with an
explicit separator (on `""` it yields `[""]`). -/
def splitOnSlash (s : String) : List String :=
  (splitCharsOn '/' s.data).map String.mk

/-- The tuple returned by `get_observation_taxonomy`:
`(order_name, family_name, error, current_rank, current_rank_name)`. -/
structure RRes where
  order_name : Option String
  family_name : Option String
  error : Option String
  current_rank : Option String
  current_rank_name : Option String
deriving Repr, DecidableEq

/-- The mutable pair `(order_name, family_name)` of the resolver. -/
structure WS where
  order : Option String
  family : Option String
deriving Repr, DecidableEq

/-- Lines 148–151: initialize `order_name` / `family_name` from the
observation's own taxon (`if current_rank == 'order' … elif … 'family'`).
Note the `elif` branch does NOT test `include_family`. -/
def initRanks (t : Taxon) : WS :=
  if t.rank == some "order" then ⟨t.name, none⟩
  else if t.rank == some "family" then ⟨none, t.name⟩
  else ⟨none, none⟩

/-- Lines 167–171: inspect one fetched ancestor document and update the
still-unset ranks (`if ancestor_rank == 'order' and not order_name … elif
include_family and ancestor_rank == 'family' and not family_name …`). -/
def checkAncestor (include_family : Bool) (s : WS) (d : TaxonDoc) : WS :=
  if d.rank == some "order" && !truthyS s.order then { s with order := d.name }
  else if include_family && d.rank == some "family" && !truthyS s.family then
    { s with family := d.name }
  else s

/-- Line 174 (and, negated, line 162): all required ranks are satisfied:
`order_name and (not include_family or family_name)`. -/
def rankSearchDone (include_family : Bool) (s : WS) : Bool :=
  truthyS s.order && (!include_family || truthyS s.family)

/-- Lines 163–179: the ancestor loop.  `fetch` is the `/v1/taxa/{id}`
oracle; `Except.error` is a fetch that raised (caught and skipped, line
176), `.ok []` a document with no results (skipped, line 166).  Returns
the final `(order_name, family_name)` pair together with the list of
ancestor ids fetched, in order.  The loop breaks (line 175) as soon as
`rankSearchDone` holds after processing an ancestor with results. -/
def walkAncestors (include_family : Bool) (fetch : String → Except String (List TaxonDoc)) :
    WS → List String → WS × List String
  | s, [] => (s, [])
  | s, aid :: rest =>
    match fetch aid with
    | Except.error _ =>
      let r := walkAncestors include_family fetch s rest
      (r.1, aid :: r.2)
    | Except.ok [] =>
      let r := walkAncestors include_family fetch s rest
      (r.1, aid :: r.2)
    | Except.ok (d :: _) =>
      let s1 := checkAncestor include_family s d
      if rankSearchDone include_family s1 then (s1, [aid])
      else
        let r := walkAncestors include_family fetch s1 rest
        (r.1, aid :: r.2)

/-- The `(order_name, family_name)` state after processing a list of
ancestors with no early break: the same per-ancestor update as
`walkAncestors`, folded over the whole list. -/
def stateAfter (include_family : Bool) (fetch : String → Except String (List TaxonDoc)) :
    WS → List String → WS
  | s, [] => s
  | s, aid :: rest =>
    match fetch aid with
    | Except.ok (d :: _) => stateAfter include_family fetch (checkAncestor include_family s d) rest
    | _ => stateAfter include_family fetch s rest

/-- Lines 122–189: `get_observation_taxonomy(observation_id, min_delay,
include_family)`.  `obsResp` is the outcome of the observation fetch
(`Except.error e` models a raised `requests` exception, line 186); `fetch`
is the per-ancestor taxon oracle.  The second component of the result is
the list of ancestor ids fetched. -/
def get_observation_taxonomy (include_family : Bool) (obsResp : Except String ObsDoc)
    (fetch : String → Except String (List TaxonDoc)) : RRes × List String :=
  match obsResp with
  | Except.error e => (⟨none, none, some ("API request failed: " ++ e), none, none⟩, [])
  | Except.ok data =>
    match data.results with
    | [] => (⟨none, none, some "No results found", none, none⟩, [])
    | r :: _ =>
      match r.taxon with
      | none => (⟨none, none, some "No taxonomic information available", none, none⟩, [])
      | some t =>
        let s0 := initRanks t
        if truthyS t.ancestry then
          let ancestorIds := splitOnSlash (t.ancestry.getD "")
          let w :=
            if rankSearchDone include_family s0 then (s0, ([] : List String))
            else walkAncestors include_family fetch s0 ancestorIds
          if truthyS w.1.order then
            (⟨w.1.order, w.1.family, none, t.rank, t.name⟩, w.2)
          else
            (⟨none, w.1.family, some "Could not find order in ancestry chain", t.rank, t.name⟩, w.2)
        else
          (⟨s0.order, s0.family, some "No ancestry information available", t.rank, t.name⟩, [])

/-- Lines 7–42: the global rate limiter's state: `min_delay`,
`last_call_time` (0 before the first call) and `call_count`.
Wall-clock times are rationals. -/
structure RateLimiter where
  min_delay : ℚ
  last_call_time : ℚ
  call_count : ℕ
deriving Repr, DecidableEq

/-- Lines 21–29: the sleep performed by `wait_and_increment` when called
at wall-clock time `now`: `min_delay - elapsed` when this is not the
first call and not enough time has elapsed, else no wait. -/
def waitTime (s : RateLimiter) (now : ℚ) : ℚ :=
  if s.last_call_time > 0 ∧ now - s.last_call_time < s.min_delay then
    s.min_delay - (now - s.last_call_time)
  else 0

/-- Lines 17–33: `RateLimiter.wait_and_increment`.  `now1` is the first
`time.time()` read and `now2` the second (taken after the optional
sleep); the new state records `now2` and bumps the call counter. -/
def wait_and_increment (s : RateLimiter) (now1 now2 : ℚ) : RateLimiter :=
  { s with last_call_time := now2, call_count := s.call_count + 1 }

/-- The outcome of one HTTP GET attempt, as seen by `make_api_request`:
a parsed body, a 429 (with optional `Retry-After` hint), another HTTP
error status, or a connection error. -/
inductive HttpOutcome (α : Type) where
  | success (body : α)
  | http429 (retryAfter : Option ℚ)
  | httpError (code : ℕ)
  | connError
deriving Repr, DecidableEq

/-- An exception propagated out of `make_api_request`: a re-raised
`HTTPError` (line 100) or a re-raised `ConnectionError` (line 110). -/
inductive FetchErr where
  | httpError (code : ℕ)
  | connError
deriving Repr, DecidableEq

/-- Lines 57–113: the `for attempt in range(retries)` loop of
`make_api_request`.  `script n` is the outcome of the HTTP attempt with
index `n`; `times n` supplies the two wall-clock reads of that attempt's
`wait_and_increment` call.  `remaining` counts loop iterations still
available (`retries - attempt`), so `remaining > 0` after the current
iteration is Python's `attempt < retries - 1`.  On a 429 with retries
left the limiter's `min_delay` is multiplied by 3/2 and capped at the
literal constant 10.0 (line 95); backoff sleeps change no modelled
state.  Falling off the loop returns Python's implicit `None`, modelled
as `Except.ok none`. -/
def requestLoop {α : Type} (script : ℕ → HttpOutcome α) (times : ℕ → ℚ × ℚ) :
    ℕ → ℕ → RateLimiter → RateLimiter × Except FetchErr (Option α)
  | _, 0, s => (s, Except.ok none)
  | attempt, r + 1, s =>
    let s1 := wait_and_increment s (times attempt).1 (times attempt).2
    match script attempt with
    | HttpOutcome.success body => (s1, Except.ok (some body))
    | HttpOutcome.http429 _ =>
      if r > 0 then
        let s2 := { s1 with min_delay := min (s1.min_delay * (3 / 2)) 10 }
        requestLoop script times (attempt + 1) r s2
      else (s1, Except.error (FetchErr.httpError 429))
    | HttpOutcome.httpError code => (s1, Except.error (FetchErr.httpError code))
    | HttpOutcome.connError =>
      if r > 0 then requestLoop script times (attempt + 1) r s1
      else (s1, Except.error FetchErr.connError)

/-- Lines 44–113: `make_api_request(url, min_delay, retries, ...)`.
Line 55 first overwrites the global rate limiter's `min_delay` with the
`min_delay` parameter, then the retry loop runs with `retries`
iterations available. -/
def make_api_request {α : Type} (s : RateLimiter) (script : ℕ → HttpOutcome α)
    (times : ℕ → ℚ × ℚ) (min_delay : ℚ) (retries : ℕ) :
    RateLimiter × Except FetchErr (Option α) :=
  requestLoop script times 0 retries { s with min_delay := min_delay }

/-- `Counter`-style increment on an association list: bump the count of
key `k`, inserting it with count 1 if absent.  Keys are the (possibly
`None`) Python values used as dict keys. -/
def bump (l : List (Option String × ℕ)) (k : Option String) : List (Option String × ℕ) :=
  match l with
  | [] => [(k, 1)]
  | (k', v) :: rest => if k' = k then (k', v + 1) :: rest else (k', v) :: bump rest k

/-- `defaultdict(Counter)`-style nested increment:
`order_family_map[o][f] += 1`. -/
def bumpFam (m : List (Option String × List (Option String × ℕ)))
    (o f : Option String) : List (Option String × List (Option String × ℕ)) :=
  match m with
  | [] => [(o, [(f, 1)])]
  | (o', fm) :: rest =>
    if o' = o then (o', bump fm f) :: rest else (o', fm) :: bumpFam rest o f

/-- Lines 239–246 and 268: the summary counters mutated by `main`'s
per-observation loop, plus the failed-observations list. -/
structure Counters where
  order_counter : List (Option String × ℕ)
  unknown_order_count : ℕ
  order_family_map : List (Option String × List (Option String × ℕ))
  unknown_family_by_order : List (Option String × ℕ)
  unknown_family_unknown_order_count : ℕ
  failed_observations : List String
deriving Repr, DecidableEq

/-- What one iteration of the per-observation loop sees: either the
tuple returned by `get_observation_taxonomy`, or an unexpected exception
raised during resolution (line 316). -/
inductive ObsStep where
  | res (r : RRes)
  | exc (msg : String)
deriving Repr, DecidableEq

/-- Lines 280–324: classify one observation's outcome, update the
counters and produce the printed line. -/
def processObs (include_family : Bool) (c : Counters) (obs_id : String)
    (step : ObsStep) : Counters × String :=
  match step with
  | ObsStep.exc m =>
    ({ c with
        unknown_order_count := c.unknown_order_count + 1,
        unknown_family_unknown_order_count :=
          if include_family then c.unknown_family_unknown_order_count + 1
          else c.unknown_family_unknown_order_count,
        failed_observations := c.failed_observations ++ [obs_id] },
     obs_id ++ ": Error - Unexpected error: " ++ m)
  | ObsStep.res r =>
    if truthyS r.error then
      if truthyS r.current_rank && truthyS r.current_rank_name then
        ({ c with
            unknown_order_count := c.unknown_order_count + 1,
            unknown_family_unknown_order_count :=
              if include_family then c.unknown_family_unknown_order_count + 1
              else c.unknown_family_unknown_order_count },
         obs_id ++ ": " ++ (r.current_rank.getD "").capitalize ++ ": "
           ++ (r.current_rank_name.getD ""))
      else
        ({ c with
            unknown_order_count := c.unknown_order_count + 1,
            unknown_family_unknown_order_count :=
              if include_family then c.unknown_family_unknown_order_count + 1
              else c.unknown_family_unknown_order_count },
         obs_id ++ ": Error - " ++ (r.error.getD ""))
    else
      let fam :=
        if include_family then
          if truthyS r.family_name then
            ({ c with order_family_map := bumpFam c.order_family_map r.order_name r.family_name },
             obs_id ++ ": Order: " ++ (r.order_name.getD "") ++ " Family: "
               ++ (r.family_name.getD ""))
          else
            ({ c with unknown_family_by_order := bump c.unknown_family_by_order r.order_name },
             obs_id ++ ": Order: " ++ (r.order_name.getD "") ++ " Family: Unknown")
        else (c, obs_id ++ ": " ++ (r.order_name.getD ""))
      ({ fam.1 with order_counter := bump fam.1.order_counter r.order_name }, fam.2)

/-- The per-observation loop (lines 280–324) folded over a list of
dispatched observations and their outcomes. -/
def runObservations (include_family : Bool) :
    Counters → List (String × ObsStep) → Counters
  | c, [] => c
  | c, (oid, st) :: rest =>
    runObservations include_family (processObs include_family c oid st).1 rest

/-- The sum of all counts in a `Counter`-style association list. -/
def counterTotal (l : List (Option String × ℕ)) : ℕ := (l.map Prod.snd).sum

/-- A pair of wall-clock reads `(now1, now2)` for one
`wait_and_increment` call is valid when times are positive and the
second read is at least the first plus the sleep the call performs
(`time.sleep` never wakes early and `time.time` is monotone). -/
def ValidStep (s : RateLimiter) (p : ℚ × ℚ) : Prop :=
  0 < p.1 ∧ p.1 + waitTime s p.1 ≤ p.2

/-- A whole sequence of wall-clock read pairs is valid when each call's
pair is valid for the limiter state at that call. -/
def ValidTrace : RateLimiter → List (ℚ × ℚ) → Prop
  | _, [] => True
  | s, p :: ps => ValidStep s p ∧ ValidTrace (wait_and_increment s p.1 p.2) ps

/-! ### Concrete fixtures -/

/-- An observation whose taxon is already at rank `order` but whose
document carries no `ancestry` field. -/
def obsOrderNoAncestry : ObsDoc := ⟨[⟨some ⟨some "order", some "Agaricales", none⟩⟩]⟩

/-- A taxon-fetch oracle: id "1" is a kingdom, "2" an order, "3" a
family; everything else raises. -/
def fetch3 : String → Except String (List TaxonDoc) := fun aid =>
  if aid = "1" then Except.ok [⟨some "kingdom", some "Fungi"⟩]
  else if aid = "2" then Except.ok [⟨some "order", some "Agaricales"⟩]
  else if aid = "3" then Except.ok [⟨some "family", some "Amanitaceae"⟩]
  else Except.error "no such taxon"

/-- A species-rank observation with ancestry `kingdom/order/family`. -/
def obsSpecies : ObsDoc := ⟨[⟨some ⟨some "species", some "Amanita muscaria", some "1/2/3"⟩⟩]⟩

/-- A family-rank observation whose ancestry contains an order. -/
def obsFamilyRank : ObsDoc := ⟨[⟨some ⟨some "family", some "Russulaceae", some "2"⟩⟩]⟩

/-- A species-rank observation with a four-element ancestry; the order
is found at the second element. -/
def obsLongChain : ObsDoc := ⟨[⟨some ⟨some "species", some "S", some "1/2/3/4"⟩⟩]⟩

/-- A taxon-fetch oracle whose documents never have rank `order`:
id "9" is a family, everything else a genus. -/
def fetchNoOrder : String → Except String (List TaxonDoc) := fun aid =>
  if aid = "9" then Except.ok [⟨some "family", some "Russulaceae"⟩]
  else Except.ok [⟨some "genus", some "Russula"⟩]

/-- A species-rank observation whose ancestry has a family but no order. -/
def obsNoOrder : ObsDoc := ⟨[⟨some ⟨some "species", some "Russula brevipes", some "9/8"⟩⟩]⟩

/-- A fresh rate limiter: `min_delay` 1.0, no call recorded yet. -/
def rlStart : RateLimiter := ⟨1, 0, 0⟩

/-- An HTTP script whose first attempt is throttled (429, no
`Retry-After` header) and whose later attempts succeed. -/
def script429First : ℕ → HttpOutcome Unit := fun n =>
  if n = 0 then HttpOutcome.http429 none else HttpOutcome.success ()

/-- An HTTP script that always succeeds. -/
def scriptOk : ℕ → HttpOutcome Unit := fun _ => HttpOutcome.success ()

/-- An HTTP script that is always throttled. -/
def script429 : ℕ → HttpOutcome Unit := fun _ => HttpOutcome.http429 none

/-- A constant wall-clock oracle (its values never matter to the
properties proved about `make_api_request`). -/
def timesOne : ℕ → ℚ × ℚ := fun _ => (1, 1)

/-! ### Claim theorems -/

/-- C1, counterexample: on an observation whose taxon is at rank
`order` with a name but whose document has no `ancestry` field,
`get_observation_taxonomy` returns a result in which BOTH `order_name`
and `errorMessage` are populated, contradicting the claimed exclusivity
on the order dimension. -/
theorem resolve_both_order_and_error_populated :
    (get_observation_taxonomy false (Except.ok obsOrderNoAncestry) fetch3).1.order_name
        = some "Agaricales" ∧
    (get_observation_taxonomy false (Except.ok obsOrderNoAncestry) fetch3).1.error
        = some "No ancestry information available" ∧
    ((get_observation_taxonomy false (Except.ok obsOrderNoAncestry) fetch3).1.order_name.isSome
        && (get_observation_taxonomy false (Except.ok obsOrderNoAncestry) fetch3).1.error.isSome)
        = true := by
  decide

/-- C1, amended: for every observation outcome, the resolver's result
satisfies exactly one of {`errorMessage` populated with `order_name`
absent, `order_name` populated with no error} — EXCEPT that when the
taxon document has no (or an empty) `ancestry` field the result may
carry a populated `order_name` together with the error
`"No ancestry information available"`; both absent never occurs. -/
theorem resolve_order_error_dichotomy (include_family : Bool)
    (obsResp : Except String ObsDoc) (fetch : String → Except String (List TaxonDoc)) :
    ((get_observation_taxonomy include_family obsResp fetch).1.error.isSome = true ∧
     (get_observation_taxonomy include_family obsResp fetch).1.order_name = none) ∨
    ((get_observation_taxonomy include_family obsResp fetch).1.order_name.isSome = true ∧
     (get_observation_taxonomy include_family obsResp fetch).1.error = none) ∨
    ((get_observation_taxonomy include_family obsResp fetch).1.order_name.isSome = true ∧
     (get_observation_taxonomy include_family obsResp fetch).1.error
        = some "No ancestry information available") := by
  rcases obsResp with e | data
  · exact Or.inl ⟨rfl, rfl⟩
  · rcases hres : data.results with _ | ⟨r, rs⟩
    · simp [get_observation_taxonomy, hres]
    · rcases ht : r.taxon with _ | t
      · simp [get_observation_taxonomy, hres, ht]
      · rcases hanc : truthyS t.ancestry with _ | _
        · -- no ancestry: error always set, order_name may or may not be
          rcases ho : (initRanks t).order with _ | o
          · simp [get_observation_taxonomy, hres, ht, hanc, ho]
          · refine Or.inr (Or.inr ?_)
            simp [get_observation_taxonomy, hres, ht, hanc, ho]
        · -- ancestry present: the final guard decides the dichotomy
          simp only [get_observation_taxonomy, hres, ht, hanc, if_true]
          rcases hw : truthyS (if rankSearchDone include_family (initRanks t) then
              (initRanks t, ([] : List String))
            else walkAncestors include_family fetch (initRanks t)
              (splitOnSlash (t.ancestry.getD ""))).1.order with _ | _
          · simp [hw]
          · refine Or.inr (Or.inl ?_)
            simp only [hw, if_true]
            constructor
            · rcases h2 : (if rankSearchDone include_family (initRanks t) then
                  (initRanks t, ([] : List String))
                else walkAncestors include_family fetch (initRanks t)
                  (splitOnSlash (t.ancestry.getD ""))).1.order with _ | o2
              · rw [h2] at hw; simp [truthyS] at hw
              · simp
            · trivial

/-- C3: `make_api_request` with `retries = 0` runs the
`for attempt in range(0)` loop zero times: it makes NO HTTP attempt
(the rate limiter's call counter is untouched) and implicitly returns
Python's `None` (`Except.ok none`) — the only state change is line 55's
overwrite of the limiter's `min_delay`.  This contradicts the spec's
requirement of exactly one attempt with a clean failure. -/
theorem make_api_request_zero_retries_no_attempt {α : Type} (s : RateLimiter)
    (script : ℕ → HttpOutcome α) (times : ℕ → ℚ × ℚ) (d : ℚ) :
    make_api_request s script times d 0 = ({ s with min_delay := d }, Except.ok none) ∧
    (make_api_request s script times d 0).1.call_count = s.call_count := by
  exact ⟨rfl, rfl⟩

/-- C4, counterexample: for a species-rank observation with ancestry
`kingdom/order/family` and family tracking on, the resolver fetches
THREE ancestors (the kingdom is fetched first, finding nothing), not
the claimed two, even though both names are indeed set. -/
theorem species_ancestry_fetches_three_not_two :
    get_observation_taxonomy true (Except.ok obsSpecies) fetch3 =
      (⟨some "Agaricales", some "Amanitaceae", none, some "species", some "Amanita muscaria"⟩,
       ["1", "2", "3"]) ∧
    ¬ ((get_observation_taxonomy true (Except.ok obsSpecies) fetch3).2.length = 2) := by
  decide

/-- C4, amended: for an observation whose taxon has rank `species` and
ancestry `[kingdom_id, order_id, family_id]`, resolving with
`wantFamily = true` performs exactly THREE ancestor fetches — the
kingdom (found wanting), then the order, then the family, at which
point the walk stops — and returns a result with both `orderName` and
`familyName` set and no error. -/
theorem species_ancestry_three_fetches (fetch : String → Except String (List TaxonDoc))
    (k o f anc : String) (sname kname : Option String) (X Y : String)
    (hanc : anc ≠ "")
    (hsplit : splitOnSlash anc = [k, o, f])
    (hk : fetch k = Except.ok [⟨some "kingdom", kname⟩])
    (ho : fetch o = Except.ok [⟨some "order", some X⟩])
    (hf : fetch f = Except.ok [⟨some "family", some Y⟩])
    (hX : X ≠ "") (hY : Y ≠ "") :
    get_observation_taxonomy true
        (Except.ok ⟨[⟨some ⟨some "species", sname, some anc⟩⟩]⟩) fetch =
      (⟨some X, some Y, none, some "species", sname⟩, [k, o, f]) := by
  simp [get_observation_taxonomy, initRanks, truthyS, hanc, hsplit, walkAncestors,
    rankSearchDone, checkAncestor, hk, ho, hf, hX, hY]

/-- C4 witness: the amended three-fetch scenario evaluated on the
concrete fixture `obsSpecies` / `fetch3`. -/
theorem species_ancestry_three_fetches_witness :
    get_observation_taxonomy true (Except.ok obsSpecies) fetch3 =
      (⟨some "Agaricales", some "Amanitaceae", none, some "species", some "Amanita muscaria"⟩,
       ["1", "2", "3"]) := by
  exact species_ancestry_three_fetches fetch3 "1" "2" "3" "1/2/3"
    (some "Amanita muscaria") (some "Fungi") "Agaricales" "Amanitaceae"
    (by decide) (by decide) rfl rfl rfl (by decide) (by decide)

/-- C5: with family tracking OFF, an observation whose own taxon is
exactly at rank `family` still gets `family_name` populated (line 151
sets it without consulting `include_family`), and the result is
returned with that family name — contradicting both the claim and the
function's own docstring ("If include_family is False, family_name will
be None"). -/
theorem family_populated_without_family_tracking :
    (get_observation_taxonomy false (Except.ok obsFamilyRank) fetch3).1.family_name
        = some "Russulaceae" ∧
    (get_observation_taxonomy false (Except.ok obsFamilyRank) fetch3).1.error = none ∧
    truthyS (get_observation_taxonomy false (Except.ok obsFamilyRank) fetch3).1.family_name
        = true := by
  decide

/-- Helper: every ancestor id fetched by the walk comes from the
ancestor list it was given. -/
theorem walkAncestors_fetched_mem (include_family : Bool)
    (fetch : String → Except String (List TaxonDoc)) :
    ∀ (l : List String) (s : WS) (x : String),
      x ∈ (walkAncestors include_family fetch s l).2 → x ∈ l := by
  intro l
  induction l with
  | nil => intro s x hx; simp [walkAncestors] at hx
  | cons a rest ih =>
    intro s x hx
    simp only [List.mem_cons]
    rcases hf : fetch a with e | docs
    · simp only [walkAncestors, hf, List.mem_cons] at hx
      rcases hx with hx | hx
      · exact Or.inl hx
      · exact Or.inr (ih s x hx)
    · rcases docs with _ | ⟨d, ds⟩
      · simp only [walkAncestors, hf, List.mem_cons] at hx
        rcases hx with hx | hx
        · exact Or.inl hx
        · exact Or.inr (ih s x hx)
      · simp only [walkAncestors, hf] at hx
        rcases hdone : rankSearchDone include_family (checkAncestor include_family s d) with _ | _ <;>
          rw [hdone] at hx
        · simp only [Bool.false_eq_true, if_false, List.mem_cons] at hx
          rcases hx with hx | hx
          · exact Or.inl hx
          · exact Or.inr (ih _ x hx)
        · simp only [if_true, List.mem_cons, List.not_mem_nil, or_false] at hx
          exact Or.inl hx

/-- Helper: if the walk starts unsatisfied and the required ranks are
all found somewhere inside the prefix `l1` of the ancestor list, the
walk on `l1 ++ l2` breaks inside `l1`: it is exactly the walk on `l1`
alone, so no ancestor of `l2` is ever fetched. -/
theorem walkAncestors_stop (include_family : Bool)
    (fetch : String → Except String (List TaxonDoc)) :
    ∀ (l1 l2 : List String) (s : WS),
      rankSearchDone include_family s = false →
      rankSearchDone include_family (stateAfter include_family fetch s l1) = true →
      walkAncestors include_family fetch s (l1 ++ l2) =
        walkAncestors include_family fetch s l1 := by
  intro l1
  induction l1 with
  | nil =>
    intro l2 s h0 h1
    rw [stateAfter] at h1
    rw [h0] at h1
    exact absurd h1 (by simp)
  | cons a rest ih =>
    intro l2 s h0 h1
    rcases hf : fetch a with e | docs
    · have h1' : rankSearchDone include_family (stateAfter include_family fetch s rest) = true := by
        rw [stateAfter, hf] at h1; exact h1
      simp only [List.cons_append, walkAncestors, hf, List.append_eq]
      rw [ih l2 s h0 h1']
    · rcases docs with _ | ⟨d, ds⟩
      · have h1' : rankSearchDone include_family (stateAfter include_family fetch s rest) = true := by
          rw [stateAfter, hf] at h1; exact h1
        simp only [List.cons_append, walkAncestors, hf, List.append_eq]
        rw [ih l2 s h0 h1']
      · have h1' : rankSearchDone include_family
            (stateAfter include_family fetch (checkAncestor include_family s d) rest) = true := by
          rw [stateAfter, hf] at h1; exact h1
        rcases hdone : rankSearchDone include_family (checkAncestor include_family s d) with _ | _
        · simp only [List.cons_append, walkAncestors, hf, hdone, Bool.false_eq_true, if_false,
            List.append_eq]
          rw [ih l2 (checkAncestor include_family s d) hdone h1']
        · simp only [List.cons_append, walkAncestors, hf, hdone, if_true]

/-- C6: the ancestry walk is short-circuited.  If the required ranks
(order, and family when `wantFamily`) are all satisfied after
processing the prefix `l1` of the ancestry chain, then every ancestor
id the resolver fetches lies in `l1`: the remaining ancestors `l2` are
never requested. -/
theorem ancestry_walk_short_circuit (include_family : Bool) (data : ObsDoc)
    (fetch : String → Except String (List TaxonDoc)) (r : ObsResult)
    (rs : List ObsResult) (t : Taxon) (l1 l2 : List String)
    (hres : data.results = r :: rs) (ht : r.taxon = some t)
    (hanc : truthyS t.ancestry = true)
    (hsplit : splitOnSlash (t.ancestry.getD "") = l1 ++ l2)
    (hdone : rankSearchDone include_family
        (stateAfter include_family fetch (initRanks t) l1) = true) :
    ∀ x ∈ (get_observation_taxonomy include_family (Except.ok data) fetch).2, x ∈ l1 := by
  intro x hx
  simp only [get_observation_taxonomy, hres, ht, hanc, if_true, hsplit] at hx
  rcases h0 : rankSearchDone include_family (initRanks t) with _ | _
  · rw [h0] at hx
    simp only [Bool.false_eq_true, if_false] at hx
    rw [walkAncestors_stop include_family fetch l1 l2 (initRanks t) h0 hdone] at hx
    rcases hw : truthyS (walkAncestors include_family fetch (initRanks t) l1).1.order with _ | _
    · rw [hw] at hx
      simp only [Bool.false_eq_true, if_false] at hx
      exact walkAncestors_fetched_mem include_family fetch l1 (initRanks t) x hx
    · rw [hw] at hx
      simp only [if_true] at hx
      exact walkAncestors_fetched_mem include_family fetch l1 (initRanks t) x hx
  · rw [h0] at hx
    simp only [if_true] at hx
    rcases hw : truthyS (initRanks t).order with _ | _ <;> rw [hw] at hx <;> simp at hx

/-- C6 witness: on the four-element chain `1/2/3/4` with
`wantFamily = false`, the order is satisfied within the prefix
`["1", "2"]`, and ancestor "3" is never fetched. -/
theorem ancestry_walk_short_circuit_witness :
    ¬ ("3" ∈ (get_observation_taxonomy false (Except.ok obsLongChain) fetch3).2) := by
  intro hmem
  have h := ancestry_walk_short_circuit false obsLongChain fetch3
    ⟨some ⟨some "species", some "S", some "1/2/3/4"⟩⟩ [] ⟨some "species", some "S", some "1/2/3/4"⟩
    ["1", "2"] ["3", "4"] rfl rfl (by decide) (by decide) (by decide) "3" hmem
  revert h
  decide

/-- C7: when the walk exhausts the ancestry chain without satisfying
the order rank, the resolver returns the error
`"Could not find order in ancestry chain"` together with whatever
`family_name` the walk found — family may be populated even though
order resolution failed. -/
theorem order_missing_returns_walk_family (include_family : Bool) (data : ObsDoc)
    (fetch : String → Except String (List TaxonDoc)) (r : ObsResult)
    (rs : List ObsResult) (t : Taxon)
    (hres : data.results = r :: rs) (ht : r.taxon = some t)
    (hanc : truthyS t.ancestry = true)
    (h0 : rankSearchDone include_family (initRanks t) = false)
    (hord : truthyS (walkAncestors include_family fetch (initRanks t)
        (splitOnSlash (t.ancestry.getD ""))).1.order = false) :
    get_observation_taxonomy include_family (Except.ok data) fetch =
      (⟨none,
        (walkAncestors include_family fetch (initRanks t)
          (splitOnSlash (t.ancestry.getD ""))).1.family,
        some "Could not find order in ancestry chain", t.rank, t.name⟩,
       (walkAncestors include_family fetch (initRanks t)
          (splitOnSlash (t.ancestry.getD ""))).2) := by
  simp only [get_observation_taxonomy, hres, ht, hanc, if_true, h0, Bool.false_eq_true,
    if_false, hord]

/-- C7 witness: a species whose chain `9/8` holds a family but no
order: the result carries the error together with the family found. -/
theorem order_missing_returns_walk_family_witness :
    get_observation_taxonomy true (Except.ok obsNoOrder) fetchNoOrder =
      (⟨none, some "Russulaceae", some "Could not find order in ancestry chain",
        some "species", some "Russula brevipes"⟩, ["9", "8"]) := by
  have h := order_missing_returns_walk_family true obsNoOrder fetchNoOrder
    ⟨some ⟨some "species", some "Russula brevipes", some "9/8"⟩⟩ []
    ⟨some "species", some "Russula brevipes", some "9/8"⟩
    rfl rfl (by decide) (by decide) (by decide)
  rw [h]
  decide

/-- Helper: through the retry loop, the limiter's `min_delay` can only
move upward (each 429 escalation takes `min(min_delay * 1.5, 10)`), and
stays within `[0, 10]` once it starts there. -/
theorem requestLoop_min_delay_mono {α : Type} (script : ℕ → HttpOutcome α)
    (times : ℕ → ℚ × ℚ) :
    ∀ (remaining attempt : ℕ) (s : RateLimiter),
      0 ≤ s.min_delay → s.min_delay ≤ 10 →
      s.min_delay ≤ (requestLoop script times attempt remaining s).1.min_delay ∧
      (requestLoop script times attempt remaining s).1.min_delay ≤ 10 := by
  intro remaining
  induction remaining with
  | zero => intro attempt s h0 h1; exact ⟨le_refl _, h1⟩
  | succ r ih =>
    intro attempt s h0 h1
    simp only [requestLoop]
    rcases hs : script attempt with body | ra | code | _
    · exact ⟨le_refl _, h1⟩
    · rcases hr : decide (r > 0) with _ | _
      · have hr' : ¬ (r > 0) := of_decide_eq_false hr
        simp only [hr', if_false]
        exact ⟨le_refl _, h1⟩
      · have hr' : r > 0 := of_decide_eq_true hr
        simp only [hr', if_true]
        have hesc0 : (0 : ℚ) ≤ min (s.min_delay * (3 / 2)) 10 := by
          apply le_min _ (by norm_num)
          nlinarith
        have hesc1 : min (s.min_delay * (3 / 2)) 10 ≤ 10 := min_le_right _ _
        have hge : s.min_delay ≤ min (s.min_delay * (3 / 2)) 10 := by
          apply le_min _ h1
          nlinarith
        have h2 := ih (attempt + 1)
          { wait_and_increment s (times attempt).1 (times attempt).2 with
            min_delay := min ((wait_and_increment s (times attempt).1 (times attempt).2).min_delay
              * (3 / 2)) 10 }
          (by simpa [wait_and_increment] using hesc0)
          (by simpa [wait_and_increment] using hesc1)
        refine ⟨le_trans hge ?_, h2.2⟩
        simpa [wait_and_increment] using h2.1
    · exact ⟨le_refl _, h1⟩
    · rcases hr : decide (r > 0) with _ | _
      · have hr' : ¬ (r > 0) := of_decide_eq_false hr
        simp only [hr', if_false]
        exact ⟨le_refl _, h1⟩
      · have hr' : r > 0 := of_decide_eq_true hr
        simp only [hr', if_true]
        have h2 := ih (attempt + 1) (wait_and_increment s (times attempt).1 (times attempt).2)
          (by simpa [wait_and_increment] using h0)
          (by simpa [wait_and_increment] using h1)
        exact ⟨le_trans (le_of_eq (by simp [wait_and_increment])) h2.1, h2.2⟩

/-- C2, counterexample: a 429 raises the limiter's `min_delay` from 1
to 3/2 — but the very next `make_api_request` call resets it to its
`min_delay` parameter (line 55).  The raised value does not persist for
the rest of the run. -/
theorem min_delay_reset_by_next_call :
    (make_api_request rlStart script429First timesOne 1 5).1.min_delay = 3 / 2 ∧
    (make_api_request (make_api_request rlStart script429First timesOne 1 5).1
        scriptOk timesOne 1 5).1.min_delay = 1 ∧
    (make_api_request (make_api_request rlStart script429First timesOne 1 5).1
        scriptOk timesOne 1 5).1.min_delay
      < (make_api_request rlStart script429First timesOne 1 5).1.min_delay := by
  have ha : (make_api_request rlStart script429First timesOne 1 5).1.min_delay = 3 / 2 := by
    norm_num [make_api_request, requestLoop, script429First, timesOne, wait_and_increment,
      rlStart, min_def]
  have hb : (make_api_request (make_api_request rlStart script429First timesOne 1 5).1
      scriptOk timesOne 1 5).1.min_delay = 1 := by
    norm_num [make_api_request, requestLoop, scriptOk, timesOne, wait_and_increment]
  refine ⟨ha, hb, ?_⟩
  rw [ha, hb]
  norm_num

/-- C2, amended: within a single `make_api_request` call whose
`min_delay` parameter `d` satisfies `0 ≤ d ≤ 10`, the limiter's
`min_delay` is non-decreasing across repeated 429s — the final value is
at least `d` — and is capped at the literal constant 10.0 (line 95's
hard-coded ceiling; the `--max-delay` option is parsed but never used).
The raised value does NOT persist across calls: line 55 resets
`min_delay` to the parameter at the start of every call. -/
theorem min_delay_monotone_within_call {α : Type} (s : RateLimiter)
    (script : ℕ → HttpOutcome α) (times : ℕ → ℚ × ℚ) (d : ℚ) (retries : ℕ)
    (h0 : 0 ≤ d) (h1 : d ≤ 10) :
    d ≤ (make_api_request s script times d retries).1.min_delay ∧
    (make_api_request s script times d retries).1.min_delay ≤ 10 := by
  have h := requestLoop_min_delay_mono script times retries 0 { s with min_delay := d } h0 h1
  exact h

/-- C2 witness: a run of five consecutive 429s starting from
`min_delay = 1` ends with a `min_delay` between 1 and 10. -/
theorem min_delay_monotone_within_call_witness :
    (1 : ℚ) ≤ (make_api_request rlStart script429 timesOne 1 5).1.min_delay ∧
    (make_api_request rlStart script429 timesOne 1 5).1.min_delay ≤ 10 :=
  min_delay_monotone_within_call rlStart script429 timesOne 1 5 (by norm_num) (by norm_num)

/-- Helper: the sleep `wait_and_increment` performs is never negative. -/
theorem waitTime_nonneg (s : RateLimiter) (now : ℚ) : 0 ≤ waitTime s now := by
  unfold waitTime
  split_ifs with h
  · linarith [h.2]
  · exact le_refl 0

/-- Helper: whenever a previous call has been recorded
(`last_call_time > 0`), a valid pair of wall-clock reads places the
newly recorded time at least `min_delay` after the previous one. -/
theorem wait_gap (s : RateLimiter) (t1 t2 : ℚ) (hlast : 0 < s.last_call_time)
    (h : t1 + waitTime s t1 ≤ t2) : s.last_call_time + s.min_delay ≤ t2 := by
  unfold waitTime at h
  by_cases hc : s.last_call_time > 0 ∧ t1 - s.last_call_time < s.min_delay
  · rw [if_pos hc] at h
    linarith
  · rw [if_neg hc] at h
    have h2 : ¬ (t1 - s.last_call_time < s.min_delay) := by
      intro hlt
      exact hc ⟨hlast, hlt⟩
    linarith [not_lt.mp h2]

/-- Helper: along a valid trace, consecutive recorded call times are at
least `min_delay` apart (the limiter's `min_delay` is never changed by
`wait_and_increment` itself). -/
theorem validTrace_chain (md : ℚ) :
    ∀ (trace : List (ℚ × ℚ)) (s : RateLimiter), s.min_delay = md →
      ValidTrace s trace →
      trace.Chain' (fun p q => p.2 + md ≤ q.2) := by
  intro trace
  induction trace with
  | nil => intro s hmd hv; exact List.chain'_nil
  | cons p ps ih =>
    intro s hmd hv
    rcases hv with ⟨hstep, hrest⟩
    rw [List.chain'_cons']
    constructor
    · intro q hq
      rcases ps with _ | ⟨q0, ps'⟩
      · simp at hq
      · simp only [List.head?_cons, Option.mem_def, Option.some.injEq] at hq
        rcases hrest with ⟨hstep2, _⟩
        have hlast : 0 < (wait_and_increment s p.1 p.2).last_call_time := by
          have := waitTime_nonneg s p.1
          simp only [wait_and_increment]
          calc (0 : ℚ) < p.1 := hstep.1
            _ ≤ p.1 + waitTime s p.1 := by linarith
            _ ≤ p.2 := hstep.2
        have hgap := wait_gap (wait_and_increment s p.1 p.2) q0.1 q0.2 hlast hstep2.2
        rw [← hq]
        simpa [wait_and_increment, hmd] using hgap
    · exact ih (wait_and_increment s p.1 p.2) (by simp [wait_and_increment, hmd]) hrest

/-- C9: for any valid sequence of wall-clock reads, starting from a
fresh limiter (`last_call_time = 0`): the first `wait_and_increment`
call never sleeps, and every two consecutively recorded calls are at
least `min_delay` apart. -/
theorem rate_limiter_first_free_and_spaced (s0 : RateLimiter) (trace : List (ℚ × ℚ))
    (hfresh : s0.last_call_time = 0) (hv : ValidTrace s0 trace) :
    (∀ p ∈ trace.head?, waitTime s0 p.1 = 0) ∧
    trace.Chain' (fun p q => p.2 + s0.min_delay ≤ q.2) := by
  constructor
  · intro p hp
    unfold waitTime
    rw [if_neg]
    intro hc
    rw [hfresh] at hc
    exact absurd hc.1 (lt_irrefl 0)
  · exact validTrace_chain s0.min_delay trace s0 rfl hv

/-- C9 witness: a fresh limiter with `min_delay = 1` and the concrete
read trace `[(5, 5), (7, 7)]`: no sleep on the first call, and the two
recorded times are at least 1 apart. -/
theorem rate_limiter_first_free_and_spaced_witness :
    (∀ p ∈ ([((5 : ℚ), (5 : ℚ)), (7, 7)] : List (ℚ × ℚ)).head?, waitTime rlStart p.1 = 0) ∧
    ([((5 : ℚ), (5 : ℚ)), (7, 7)] : List (ℚ × ℚ)).Chain'
      (fun p q => p.2 + rlStart.min_delay ≤ q.2) := by
  apply rate_limiter_first_free_and_spaced rlStart [(5, 5), (7, 7)] rfl
  refine ⟨⟨by norm_num, ?_⟩, ⟨by norm_num, ?_⟩, trivial⟩
  · norm_num [waitTime, rlStart]
  · norm_num [waitTime, wait_and_increment, rlStart]

/-- Helper: bumping one key in a `Counter` raises the total by one. -/
theorem counterTotal_bump (k : Option String) :
    ∀ l : List (Option String × ℕ), counterTotal (bump l k) = counterTotal l + 1 := by
  intro l
  induction l with
  | nil => simp [bump, counterTotal]
  | cons p rest ih =>
    rcases p with ⟨k', v⟩
    by_cases hk : k' = k
    · simp [bump, hk, counterTotal]
      omega
    · simp only [bump, hk, if_false, counterTotal, List.map_cons, List.sum_cons] at ih ⊢
      omega

/-- Helper: every per-observation path adds exactly one to
(total of the order counter) + (unknown-order count). -/
theorem processObs_total (include_family : Bool) (c : Counters) (oid : String)
    (st : ObsStep) :
    counterTotal (processObs include_family c oid st).1.order_counter +
      (processObs include_family c oid st).1.unknown_order_count =
    counterTotal c.order_counter + c.unknown_order_count + 1 := by
  rcases st with r | m
  · rcases herr : truthyS r.error with _ | _
    · -- success path: order counter bumped
      rcases hfam : include_family with _ | _
      · simp only [processObs, herr, Bool.false_eq_true, if_false, hfam]
        rw [counterTotal_bump]
        omega
      · rcases hf2 : truthyS r.family_name with _ | _ <;>
          simp only [processObs, herr, Bool.false_eq_true, if_false, hfam, if_true, hf2] <;>
          rw [counterTotal_bump] <;> omega
    · -- error path: unknown order bumped
      rcases hrk : truthyS r.current_rank && truthyS r.current_rank_name with _ | _ <;>
        simp only [processObs, herr, if_true, hrk, Bool.false_eq_true, if_false] <;> omega
  · simp only [processObs]
    omega

/-- C8: after the per-observation loop processes any list of dispatched
observations, the total of all order counts (every known order plus the
unknown-order count) has grown by exactly the number of observations
dispatched: every path — error result, success result, or unexpected
exception — increments exactly one of those counters. -/
theorem summary_counts_match_dispatched (include_family : Bool)
    (steps : List (String × ObsStep)) :
    ∀ c : Counters,
      counterTotal (runObservations include_family c steps).order_counter +
        (runObservations include_family c steps).unknown_order_count =
      counterTotal c.order_counter + c.unknown_order_count + steps.length := by
  induction steps with
  | nil => intro c; simp [runObservations]
  | cons p rest ih =>
    intro c
    rcases p with ⟨oid, st⟩
    simp only [runObservations, List.length_cons]
    rw [ih, processObs_total]
    omega

/-- C10: when family tracking is on, a resolution result carrying an
error always increments the unknown-order and
unknown-family-under-unknown-order counters — and its `family_name` is
discarded entirely: the processing outcome (counters and printed line)
is identical whatever `family_name` the result carried, and no family
counter changes. -/
theorem error_result_discards_family (c : Counters) (oid : String) (r : RRes)
    (x : Option String) (herr : truthyS r.error = true) :
    processObs true c oid (ObsStep.res r) =
      processObs true c oid (ObsStep.res { r with family_name := x }) ∧
    (processObs true c oid (ObsStep.res r)).1 =
      { c with
          unknown_order_count := c.unknown_order_count + 1,
          unknown_family_unknown_order_count :=
            c.unknown_family_unknown_order_count + 1 } := by
  constructor
  · simp only [processObs, herr, if_true]
  · rcases hrk : truthyS r.current_rank && truthyS r.current_rank_name with _ | _ <;>
      simp only [processObs, herr, if_true, hrk, Bool.false_eq_true, if_false]

/-- C10 witness: a concrete error result carrying a family name: the
counters move as stated and the family name is interchangeable. -/
theorem error_result_discards_family_witness :
    processObs true ⟨[], 0, [], [], 0, []⟩ "oid"
        (ObsStep.res ⟨none, some "Russulaceae", some "boom", none, none⟩) =
      processObs true ⟨[], 0, [], [], 0, []⟩ "oid"
        (ObsStep.res ⟨none, none, some "boom", none, none⟩) ∧
    (processObs true ⟨[], 0, [], [], 0, []⟩ "oid"
        (ObsStep.res ⟨none, some "Russulaceae", some "boom", none, none⟩)).1 =
      ⟨[], 1, [], [], 1, []⟩ := by
  exact error_result_discards_family ⟨[], 0, [], [], 0, []⟩ "oid"
    ⟨none, some "Russulaceae", some "boom", none, none⟩ none (by decide)

end INat
